import Mathlib

/-!
Shallow embedding of the core of the fusion360descriptor exporter
(`src/Descriptor/core/parser.py` and `src/Descriptor/core/parts.py`).

Numbers are modelled as rationals.  Python dictionaries are modelled as
insertion-ordered association lists (`dictGet` / `dictSet` below), which
matches CPython dict semantics: assignment to an existing key replaces the
value in place, assignment to a new key appends.

Functions from `utils.py` and `transforms.py` are imported by the sources but
these files are not part of the given sources; whenever such a function is
needed it is modelled from the spec and marked `Modelled from the spec:` in
its doc comment.  In particular `utils.fatal` (spec section 7: every fatal
error aborts the run immediately with a descriptive message) is modelled by
returning `Except.error` with the message.
-/

/-- Insertion-ordered dictionary lookup: first pair whose key matches. -/
def dictGet {β : Type} : List (String × β) → String → Option β
  | [], _ => none
  | e :: t, k => if e.1 = k then some e.2 else dictGet t k

/-- Insertion-ordered dictionary assignment: replace the value of the first
pair with the given key, or append a new pair when the key is absent.
This is CPython dict assignment. -/
def dictSet {β : Type} : List (String × β) → String → β → List (String × β)
  | [], k, v => [(k, v)]
  | e :: t, k, v => if e.1 = k then (k, v) :: t else e :: dictSet t k v

/-- `adsk.core.Point3D`: a point with three rational coordinates. -/
structure Point3D where
  x : ℚ
  y : ℚ
  z : ℚ
deriving DecidableEq, Repr

/-- `adsk.core.Vector3D`. -/
structure Vector3D where
  x : ℚ
  y : ℚ
  z : ℚ
deriving DecidableEq, Repr

/-- `adsk.core.Matrix3D`, viewed through `getAsCoordinateSystem` /
`setWithCoordinateSystem` exactly as the parser uses it: an origin point and
the three axis vectors of the rotation part. -/
structure Matrix3D where
  origin : Point3D
  xAxis : Vector3D
  yAxis : Vector3D
  zAxis : Vector3D
deriving DecidableEq, Repr

/-- `JointInfo` dataclass of `parser.py` (line 14): the joint record built
from a CAD joint or rigid-group primitive.  Field defaults are those of the
dataclass (`type="fixed"`, zero origin, zero axis tuple, zero limits). -/
structure JointInfo where
  name : String
  parent : String
  child : String
  type : String := "fixed"
  origin : Point3D := ⟨0, 0, 0⟩
  axis : ℚ × ℚ × ℚ := (0, 0, 0)
  upper_limit : ℚ := 0
  lower_limit : ℚ := 0
deriving DecidableEq, Repr

/-- `Configurator.__init__`: `self.eps = 1e-7 / self.scale`. -/
def epsFor (scale : ℚ) : ℚ := (1 / 10000000) / scale

/-- `Configurator.close_enough` on two floats: `abs(a-b) < self.eps`. -/
def close_enough_num (eps a b : ℚ) : Bool := decide (|a - b| < eps)

/-- `Configurator.close_enough` on two `Point3D`s: `asArray` gives the three
coordinates, and the zipped per-axis comparisons must all hold. -/
def close_enough_pt (eps : ℚ) (a b : Point3D) : Bool :=
  close_enough_num eps a.x b.x && close_enough_num eps a.y b.y &&
    close_enough_num eps a.z b.z

/-- The ordinal-to-name table `Configurator.joint_type_list`
(`parser.py` line 194). -/
def joint_type_list : List String :=
  ["fixed", "revolute", "prismatic", "Cylinderical", "PinSlot", "Planner", "Ball"]

/-- Renders a point the way the fatal message renders `asArray()`; numeral
formatting of Python floats is modelled by the `ℚ` `toString`. -/
def ptStr (p : Point3D) : String :=
  "(" ++ toString p.x ++ ", " ++ toString p.y ++ ", " ++ toString p.z ++ ")"

/-- Message of `utils.fatal` at `parser.py` line 452. -/
def no_origin_msg (orig_name : String) : String :=
  "Non-fixed joint " ++ orig_name ++ " does not have an origin, aborting"

/-- Message of `utils.fatal` at `parser.py` lines 454-456: it names both
occurrences and both origins. -/
def coincide_msg (occOneName occTwoName origName : String) (p1 p2 : Point3D) : String :=
  "Occurrences " ++ occOneName ++ " and " ++ occTwoName ++ " of non-fixed " ++
    origName ++ " have origins " ++ ptStr p1 ++ " and " ++ ptStr p2 ++
    " that do not coincide. Make sure the joint is \"at 0 / at home\" before exporting"

/-- The `joint.jointMotion` object, as far as `_joints` inspects it:
either a `RevoluteJointMotion` (rotation axis and rotation limits with their
enabled flags), a `SliderJointMotion` (slide direction and slide limits), or
any other motion class. -/
inductive JointMotion where
  | revolute (isMaxEnabled isMinEnabled : Bool) (rotationAxis : Vector3D)
      (maxValue minValue : ℚ)
  | slider (isMaxEnabled isMinEnabled : Bool) (slideDirection : Vector3D)
      (maxValue minValue : ℚ)
  | otherMotion
deriving DecidableEq, Repr

/-- Axis/limit extraction of `Configurator._joints` (`parser.py` lines
458-487) for a non-fixed joint whose origin checks passed.  `assert`
statements abort the run when false and are modelled as errors.
`cm` is the centimeter-to-target-unit factor `self.cm`. -/
def extract_axis_limits (cm : ℚ) (name parent child jt : String) (p1 : Point3D)
    (m : JointMotion) : Except String JointInfo :=
  match m with
  | .revolute maxEn minEn ax mx mn =>
      if maxEn && minEn then
        let lims : ℚ × ℚ :=
          if |mx - mn| = 0 then (-(314159/100000 : ℚ), (314159/100000 : ℚ)) else (mn, mx)
        .ok { name := name, parent := parent, child := child, type := jt, origin := p1,
              axis := (ax.x, ax.y, ax.z), upper_limit := lims.2, lower_limit := lims.1 }
      else .error "AssertionError: rotation limits not enabled"
  | .slider maxEn minEn ax mx mn =>
      if maxEn && minEn then
        .ok { name := name, parent := parent, child := child, type := jt, origin := p1,
              axis := (ax.x, ax.y, ax.z), upper_limit := mx * cm, lower_limit := mn * cm }
      else .error "AssertionError: slide limits not enabled"
  | .otherMotion =>
      .ok { name := name, parent := parent, child := child, type := jt, origin := p1,
            axis := (0, 0, 0), upper_limit := 0, lower_limit := 0 }

/-- The per-joint body of `Configurator._joints` (`parser.py` lines 447-489)
after the health check, the kind lookup and the naming: `name` is the
deduplicated joint name, `origName` the original `joint.name` used in the
fatal messages, `parent`/`child` are the resolved occurrence names after the
`joint_order` swap, and `geom_one_origin`/`geom_two_origin` are the already
resolved `get_origin` results (where a `RuntimeError` became `none`). -/
def processJoint (eps cm : ℚ) (name origName parent child jt : String)
    (geom_one_origin geom_two_origin : Option Point3D)
    (occOneName occTwoName : String) (m : JointMotion) : Except String JointInfo :=
  if jt = "fixed" then
    .ok { name := name, parent := parent, child := child }
  else
    match geom_one_origin with
    | none => .error (no_origin_msg origName)
    | some p1 =>
      match geom_two_origin with
      | some p2 =>
          if close_enough_pt eps p2 p1 then
            extract_axis_limits cm name parent child jt p1 m
          else .error (coincide_msg occOneName occTwoName origName p1 p2)
      | none => extract_axis_limits cm name parent child jt p1 m

/-- Decimal rendering of a natural number used for the deduplication suffix:
the base-10 digits, most significant first, as a string.  (A self-contained
executable rendering is used so that its injectivity is provable.) -/
def natToStr (n : ℕ) : String :=
  List.asString (((Nat.digits 10 n).map Nat.digitChar).reverse)

/-- The candidate produced by appending a numeric suffix to a name. -/
def candName (base : String) (k : ℕ) : String := base ++ "_" ++ natToStr k

/-- Modelled from the spec: the suffix search of `utils.rename_if_duplicate`
(`utils.py` is not part of the given sources).  Starting from suffix `k`, try
`base_k`, `base_k+1`, ... until the candidate is unused; `fuel` bounds the
search (the caller passes enough fuel for the search to always succeed). -/
def rename_with_suffix (base : String) (existing : List String) : ℕ → ℕ → String
  | 0, k => candName base k
  | fuel + 1, k =>
      if candName base k ∈ existing then rename_with_suffix base existing fuel (k + 1)
      else candName base k

/-- Modelled from the spec: `utils.rename_if_duplicate` (section 4.2 of the
spec: derive a candidate name; if that candidate already exists, append a
deterministic numeric suffix, the first unused integer, until unique). -/
def rename_if_duplicate (name : String) (existing : List String) : String :=
  if name ∈ existing then rename_with_suffix name existing existing.length 1
  else name

/-- Modelled from the spec: `utils.format_name` (section 4.5: sanitizing to an
identifier-safe string); every character that is not alphanumeric or an
underscore becomes an underscore. -/
def format_name (s : String) : String :=
  String.mk (s.data.map (fun ch => if ch.isAlphanum || ch = '_' then ch else '_'))

/-- Modelled from the spec: `utils.convert_german` (section 4.5:
transliterating non-ASCII characters); German umlauts and sharp s are
replaced by ASCII sequences, all other characters are kept. -/
def convert_german (s : String) : String :=
  String.mk (s.data.map (fun ch =>
    if ch = 'ä' then ['a', 'e'] else if ch = 'ö' then ['o', 'e']
    else if ch = 'ü' then ['u', 'e'] else if ch = 'Ä' then ['A', 'e']
    else if ch = 'Ö' then ['O', 'e'] else if ch = 'Ü' then ['U', 'e']
    else if ch = 'ß' then ['s', 's'] else [ch])).flatten

/-- A CAD occurrence, as far as naming is concerned: its stable entity token
and its display name. -/
structure Occ where
  entityToken : String
  name : String
deriving DecidableEq, Repr

/-- The naming state of `Configurator`: `links_by_token` maps entity tokens to
assigned names, `links_by_name` records which names are taken (the dict keys;
the occurrence values are irrelevant to naming). -/
structure NameState where
  links_by_token : List (String × String)
  links_by_name : List String
deriving DecidableEq, Repr

/-- `Configurator.get_name` (`parser.py` lines 331-337): cached lookup by
entity token, otherwise assign a deduplicated name derived from the display
name and record it in both maps. -/
def get_name (ns : NameState) (oc : Occ) : String × NameState :=
  match dictGet ns.links_by_token oc.entityToken with
  | some n => (n, ns)
  | none =>
      let name := rename_if_duplicate oc.name ns.links_by_name
      (name, ⟨ns.links_by_token ++ [(oc.entityToken, name)], ns.links_by_name ++ [name]⟩)

/-- One iteration (for `i ≥ 1`) of the rigid-group loop of
`Configurator._joints` (`parser.py` lines 495-507): compute the deduplicated
record name from the group name and the current joint keys, resolve the names
of the parent occurrence (the first of the group) and of the current
occurrence, and store a fixed `JointInfo` under the record name. -/
def rigid_group_step (groupName : String) (parent_occ : Occ)
    (acc : NameState × List (String × JointInfo)) (occ : Occ) :
    NameState × List (String × JointInfo) :=
  let rigid_group_occ_name := rename_if_duplicate groupName (acc.2.map (·.1))
  let pr := get_name acc.1 parent_occ
  let cr := get_name pr.2 occ
  (cr.2, dictSet acc.2 rigid_group_occ_name
    { name := rigid_group_occ_name, parent := pr.1, child := cr.1 })

/-- The rigid-group loop of `Configurator._joints` (`parser.py` lines
492-507) for one group: the first listed occurrence becomes the parent and
the loop body runs for every other occurrence. -/
def processRigidGroup (ns : NameState) (joints_dict : List (String × JointInfo))
    (groupName : String) (occs : List Occ) : NameState × List (String × JointInfo) :=
  match occs with
  | [] => (ns, joints_dict)
  | parent_occ :: rest => rest.foldl (rigid_group_step groupName parent_occ) (ns, joints_dict)

/-- The joint entity as emitted by `Configurator._build` (`parser.py` lines
668-671).  The serialized `xyz`/`rpy` fields of `parts.Joint` are computed
there from the composed transform via `utils.so3_to_euler`, an Euler-angle
readout that is not part of the given sources and is irrational-valued; no
claim refers to those two numbers, so they are omitted from this record. -/
structure OutJoint where
  name : String
  type : String
  axis : ℚ × ℚ × ℚ
  parent : String
  child : String
  upper_limit : ℚ
  lower_limit : ℚ
deriving DecidableEq, Repr

/-- The mutable state of the kinematic BFS of `Configurator._build`:
the grounded set, the new boundary of the current pass, the per-occurrence
absolute pose table `link_origins` and the emitted joints. -/
structure BuildState where
  grounded : List String
  new_boundary : List String
  link_origins : List (String × Matrix3D)
  joints : List (String × OutJoint)
deriving DecidableEq, Repr

/-- Neighbor determination of `Configurator._build` (`parser.py` lines
626-636): from the declared parent the neighbor is the declared child unless
the child is already grounded; from the declared child the neighbor is the
declared parent only when the parent is not yet grounded (the declared
direction then disagrees with the spanning tree and the two are swapped). -/
def neighborOf (grounded : List String) (occName : String) (j : JointInfo) :
    Option String :=
  if j.parent = occName then
    if j.child ∈ grounded then none else some j.child
  else
    if j.parent ∈ grounded then none else some j.parent

/-- Discovery of a new neighbor in `Configurator._build` (`parser.py` lines
638-673): add it to the new boundary, store its absolute pose (the raw CAD
transform `links_by_name[child_name].transform2`; for a non-fixed joint its
origin is overwritten with the joint origin by `setWithCoordinateSystem`,
which keeps the three axes), and emit the output joint with the current
occurrence as parent. -/
def discover_neighbor (links_by_name : String → Matrix3D) (st : BuildState)
    (occName : String) (j : JointInfo) (child_name : String) : BuildState :=
  let child_origin0 := links_by_name child_name
  let child_origin :=
    if j.type ≠ "fixed" then { child_origin0 with origin := j.origin } else child_origin0
  { grounded := st.grounded,
    new_boundary :=
      if child_name ∈ st.new_boundary then st.new_boundary
      else st.new_boundary ++ [child_name],
    link_origins := dictSet st.link_origins child_name child_origin,
    joints := dictSet st.joints j.name
      { name := j.name, type := j.type, axis := j.axis, parent := occName,
        child := child_name, upper_limit := j.upper_limit, lower_limit := j.lower_limit } }

/-- Examination of one joint record incident to a boundary occurrence
(`parser.py` lines 624-673).  (The `assert joint.child == occ_name` of the
source holds because the record was taken from `occurrences[occ_name]`.) -/
def examineJoint (links_by_name : String → Matrix3D) (st : BuildState)
    (occName : String) (j : JointInfo) : BuildState :=
  match neighborOf st.grounded occName j with
  | none => st
  | some child_name => discover_neighbor links_by_name st occName j child_name

/-- The adjacency map `occurrences` of `Configurator._build` (`parser.py`
lines 611-614): the joint names incident to a given occurrence name, in
insertion order. -/
def occurrences_of (joints_dict : List (String × JointInfo)) (nm : String) :
    List String :=
  (joints_dict.filter (fun e => e.2.parent == nm || e.2.child == nm)).map (·.1)

/-- One pass of the kinematic BFS over the whole boundary. -/
def build_pass (links_by_name : String → Matrix3D)
    (joints_dict : List (String × JointInfo)) (st : BuildState)
    (boundary : List String) : BuildState :=
  boundary.foldl (fun st occName =>
    (occurrences_of joints_dict occName).foldl (fun st jn =>
      match dictGet joints_dict jn with
      | some j => examineJoint links_by_name st occName j
      | none => st) st) st

/-- The `while boundary:` loop of `Configurator._build` (`parser.py` lines
620-676), with fuel for the while loop: after each pass the new boundary is
merged into the grounded set and becomes the next boundary. -/
def build_loop (links_by_name : String → Matrix3D)
    (joints_dict : List (String × JointInfo)) :
    ℕ → BuildState → List String → BuildState
  | 0, st, _ => st
  | fuel + 1, st, boundary =>
      match boundary with
      | [] => st
      | _ :: _ =>
          let st1 := build_pass links_by_name joints_dict
            { st with new_boundary := [] } boundary
          build_loop links_by_name joints_dict fuel
            { st1 with grounded := st1.grounded ++ st1.new_boundary, new_boundary := [] }
            st1.new_boundary

/-- A CAD body as far as the mass correction is concerned: its own mass and
its visibility (light bulb) flag. -/
structure BodyB where
  mass : ℚ
  isLightBulbOn : Bool
deriving DecidableEq, Repr

/-- A node of the `Hierarchy` scene tree of `parser.py`: the bodies owned
directly by the occurrence (`component.bRepBodies`) and the child nodes. -/
inductive Hier where
  | mk (bodies : List BodyB) (children : List Hier)

/-- The bodies owned directly by the node. -/
def Hier.bodies : Hier → List BodyB
  | .mk b _ => b

/-- The child nodes. -/
def Hier.children : Hier → List Hier
  | .mk _ c => c

/-- All strict descendants of every node of the list, in list order.
`Hierarchy.get_all_children` iterates a stack-set and returns a token-keyed
map; only membership in the returned collection matters and the Python set
iteration order is arbitrary, so a fixed list order is used here. -/
def descendantsL : List Hier → List Hier
  | [] => []
  | .mk _ cs :: t => (cs ++ descendantsL cs) ++ descendantsL t

/-- `Hierarchy.get_all_children` of one node (`parser.py` lines 50-66):
all strict descendants. -/
def Hier.descendants : Hier → List Hier
  | .mk _ cs => cs ++ descendantsL cs

/-- `Hierarchy.get_flat_body` (`parser.py` lines 68-115), translated
step by step: `child_set` is `get_all_children`; when it is empty the own
bodies are collected; `childs` gathers `x.children` for every `x` in
`child_set` that has children (the depth-two-or-more descendants); the while
loop then pops exactly the members of `childs` (the refills recompute the
same `childs` minus the closed set, so nothing new is ever added) and
appends the bodies of each.  The result is the concatenation. -/
def get_flat_body (h : Hier) : List BodyB :=
  let child_set := h.descendants
  let childs := ((child_set.filter (fun x => !x.children.isEmpty)).map Hier.children).flatten
  let body_list := (if child_set.isEmpty then [h.bodies] else []) ++ childs.map Hier.bodies
  body_list.flatten

/-- The mass computation of `Configurator._get_inertia` (`parser.py` lines
347-360): start from the host-reported mass and subtract the mass of every
body of `get_flat_body` whose light bulb is off. -/
def inertia_mass (host_mass : ℚ) (h : Hier) : ℚ :=
  host_mass - (((get_flat_body h).filter (fun b => !b.isLightBulbOn)).map (·.mass)).sum

/-- Modelled from the spec (claim C5 wording, spec section 4.4): all bodies
of the entire subtree of the occurrence, its own bodies and those of all
descendants. -/
def subtree_bodies (h : Hier) : List BodyB :=
  h.bodies ++ (h.descendants.map Hier.bodies).flatten

/-- Modelled from the spec: the mass correction as the claim states it,
subtracting every hidden body of the entire subtree. -/
def claim_mass (host_mass : ℚ) (h : Hier) : ℚ :=
  host_mass - (((subtree_bodies h).filter (fun b => !b.isLightBulbOn)).map (·.mass)).sum

/-- An occurrence as seen by the sanity check of `Configurator._build`
(`parser.py` lines 678-693): entity token, display name, visibility, and the
key under which its visible bodies would appear in `body_dict`
(`format_name` of its resolved link name). -/
structure OccView where
  entityToken : String
  name : String
  isLightBulbOn : Bool
  bodyDictKey : String
deriving DecidableEq, Repr

/-- The `Configurator.name` property (`parser.py` lines 310-313):
`self.root.name.split()[0]`, the first whitespace-delimited word of the root
component name. -/
def config_name (rootName : String) : String :=
  String.mk ((rootName.data.dropWhile (fun c => c = ' ')).takeWhile (fun c => c ≠ ' '))

/-- The fatal message assembled at `parser.py` lines 687-693 (the source
misspells Unreachable). -/
def sanity_error_msg (not_in_joints unreachable : List String) : String :=
  "Not all components were included in the export:" ++
    (if not_in_joints.isEmpty then "" else
      "Not a part of any joint or rigid group: " ++
        String.intercalate ", " not_in_joints ++ ".") ++
    (if unreachable.isEmpty then "" else
      "Unreacheable from the grounded component via joints+links: " ++
        String.intercalate ", " unreachable ++ ".")

/-- The sanity check of `Configurator._build` (`parser.py` lines 678-693),
exactly as written: a component is examined only when it is visible AND
`self.body_dict.get(self.name)` is not `None` — where `self.name` is the
root component name property, constant over the loop; `body_dict_keys` are
the keys of `body_dict` (occurrence names that own at least one visible
body).  An examined component joins `not_in_joints` when its token was never
named, else `unreachable` when its link name is not grounded.  The result is
the fatal message, or `none` when no error is raised. -/
def sanity_check (rootName : String) (comps : List OccView)
    (body_dict_keys : List String) (links_by_token : List (String × String))
    (grounded_occ : List String) : Option String :=
  let gate := fun (c : OccView) =>
    c.isLightBulbOn && decide (config_name rootName ∈ body_dict_keys)
  let not_in_joints := (comps.filter (fun c =>
    gate c && (dictGet links_by_token c.entityToken).isNone)).map (·.name)
  let unreachable := (comps.filter (fun c =>
    gate c && (match dictGet links_by_token c.entityToken with
               | some ln => decide (ln ∉ grounded_occ)
               | none => false))).map (·.name)
  if not_in_joints.isEmpty && unreachable.isEmpty then none
  else some (sanity_error_msg not_in_joints unreachable)

/-- Modelled from the spec: the step-5 reachability check as the
specification states it (spec section 4.3 step 5) — every visible,
body-bearing occurrence must be flagged when it is absent from the joint
graph or not in the grounded set, and either condition is fatal.  Body
bearing is judged per occurrence, by its own `body_dict` key. -/
def sanity_check_spec (comps : List OccView) (body_dict_keys : List String)
    (links_by_token : List (String × String)) (grounded_occ : List String) :
    Option String :=
  let offending := (comps.filter (fun c =>
    c.isLightBulbOn && decide (c.bodyDictKey ∈ body_dict_keys) &&
      ((dictGet links_by_token c.entityToken).isNone ||
        (match dictGet links_by_token c.entityToken with
         | some ln => decide (ln ∉ grounded_occ)
         | none => false)))).map (·.name)
  if offending.isEmpty then none
  else some ("Not all components were included in the export: " ++
    String.intercalate ", " offending)

/-- One entry of `appearance.appearanceProperties`: either an
`adsk.core.ColorProperty` carrying an RGBA value on the 0-255 scale, or any
other property class. -/
inductive AppearanceProp where
  | colorProp (red green blue opacity : ℕ)
  | otherProp
deriving DecidableEq, Repr

/-- An `adsk.core.Appearance`: its name and its property list. -/
structure Appearance where
  name : String
  props : List AppearanceProp
deriving DecidableEq, Repr

/-- A body as far as material resolution is concerned. -/
structure BodyA where
  appearance : Option Appearance
deriving DecidableEq, Repr

/-- An occurrence as seen by `Configurator.__get_appearance`:
its own appearance, its owned bodies, and `occ.component.material` (outer
option: the material exists; inner option: the appearance of the material).
Truthiness of the `occ.bRepBodies` collection is modelled as non-emptiness. -/
structure OccM where
  appearance : Option Appearance
  bRepBodies : List BodyA
  componentMaterial : Option (Option Appearance)
deriving DecidableEq, Repr

/-- The first `ColorProperty` of a property list (the `for prop in
appearance.appearanceProperties` loop, `parser.py` lines 546-548). -/
def first_color : List AppearanceProp → Option (ℕ × ℕ × ℕ × ℕ)
  | [] => none
  | .colorProp r g b o :: _ => some (r, g, b, o)
  | .otherProp :: rest => first_color rest

/-- The `if`/`elif` appearance selection of `Configurator.__get_appearance`
(`parser.py` lines 531-541): the occurrence appearance when present, else —
when the body collection is non-empty — the first owned body that has an
appearance (possibly none), else the component material appearance when a
material is present. -/
def picked_appearance (occ : OccM) : Option Appearance :=
  if occ.appearance.isSome then occ.appearance
  else if !occ.bRepBodies.isEmpty then
    ((occ.bRepBodies.filter (fun b => b.appearance.isSome)).head?).bind (fun b => b.appearance)
  else if occ.componentMaterial.isSome then occ.componentMaterial.getD none
  else none

/-- `Configurator.__get_appearance` (`parser.py` lines 530-549): the selected
appearance name together with its first color property, or `(none, none)`. -/
def get_appearance (occ : OccM) : Option String × Option (ℕ × ℕ × ℕ × ℕ) :=
  match picked_appearance occ with
  | some app =>
      match first_color app.props with
      | some cp => (some app.name, some cp)
      | none => (none, none)
  | none => (none, none)

/-- The per-occurrence material assignment of `Configurator._materials`
(`parser.py` lines 551-566): the default `silver_default` (pre-registered in
`color_dict` as `0.700 0.700 0.700 1.000`), replaced by the sanitized
appearance name when a color property was found. -/
def occ_material (occ : OccM) : String :=
  match get_appearance occ with
  | (some prop_name, some _) => format_name (convert_german prop_name)
  | _ => "silver_default"

/-- Modelled from the spec (claim C9 wording): the appearance priority as the
claim states it — own appearance, else the first owned body that has an
appearance, else the component material appearance. -/
def claim_appearance (occ : OccM) : Option Appearance :=
  match occ.appearance with
  | some a => some a
  | none =>
      match ((occ.bRepBodies.filter (fun b => b.appearance.isSome)).head?).bind
          (fun b => b.appearance) with
      | some a => some a
      | none => occ.componentMaterial.getD none

/-- Modelled from the spec (claim C9 wording): the material the claim
predicts for an occurrence. -/
def claim_material (occ : OccM) : String :=
  match claim_appearance occ with
  | some app =>
      match first_color app.props with
      | some _ => format_name (convert_german app.name)
      | none => "silver_default"
  | none => "silver_default"

/-- An XML element tree as built by `parts.Joint.joint_xml`
(`xml.etree.ElementTree.Element` with attributes and sub-elements; the final
pretty-printing to text is not modelled). -/
inductive Xml where
  | el (tag : String) (attrs : List (String × String)) (children : List Xml)

/-- The tag of an element. -/
def Xml.tag : Xml → String
  | .el t _ _ => t

/-- The sub-elements of an element. -/
def Xml.children : Xml → List Xml
  | .el _ _ c => c

/-- `parts.Joint.effort_limit` (class default). -/
def effort_limit : ℚ := 100

/-- `parts.Joint.vel_limit` (class default). -/
def vel_limit : ℚ := 100

/-- `parts.Joint` as constructed for serialization: the numeral-to-string
formatting of Python `str(float)` is modelled by the `ℚ` `toString`. -/
structure PJoint where
  name : String
  type : String
  xyz : List ℚ
  rpy : List ℚ
  axis : List ℚ
  parent : String
  child : String
  upper_limit : ℚ
  lower_limit : ℚ

/-- Space-joined rendering of a numeric sequence, as in
`' '.join([str(_) for _ in ...])`. -/
def joinNums (l : List ℚ) : String :=
  String.intercalate " " (l.map (fun q => toString q))

/-- `parts.Joint.joint_xml` (`parts.py` lines 54-88) as an element tree:
origin, parent and child always; an `axis` element only for the types
`revolute`, `continuous` and `prismatic`; a `limit` element with `upper`,
`lower` and the class default `effort`/`velocity` attributes only for
`revolute` and `prismatic`. -/
def joint_xml (j : PJoint) : Xml :=
  Xml.el "joint" [("name", format_name j.name), ("type", j.type)]
    ([Xml.el "origin" [("xyz", joinNums j.xyz), ("rpy", joinNums j.rpy)] [],
      Xml.el "parent" [("link", format_name j.parent)] [],
      Xml.el "child" [("link", format_name j.child)] []]
     ++ (if j.type = "revolute" ∨ j.type = "continuous" ∨ j.type = "prismatic" then
          [Xml.el "axis" [("xyz", joinNums j.axis)] []]
         else [])
     ++ (if j.type = "revolute" ∨ j.type = "prismatic" then
          [Xml.el "limit" [("upper", toString j.upper_limit), ("lower", toString j.lower_limit),
            ("effort", toString effort_limit), ("velocity", toString vel_limit)] []]
         else []))

lemma dictGet_dictSet_self {β : Type} (d : List (String × β)) (k : String) (v : β) :
    dictGet (dictSet d k v) k = some v := by
  induction d with
  | nil => simp [dictSet, dictGet]
  | cons e t ih =>
      by_cases h : e.1 = k
      · simp [dictSet, dictGet, h]
      · simp [dictSet, dictGet, h, ih]

lemma dictGet_append_some {β : Type} (d d' : List (String × β)) (k : String) (v : β)
    (h : dictGet d k = some v) : dictGet (d ++ d') k = some v := by
  induction d with
  | nil => simp [dictGet] at h
  | cons e t ih =>
      by_cases he : e.1 = k
      · simp [dictGet, he] at h ⊢; exact h
      · simp [dictGet, he] at h ⊢; exact ih h

lemma dictGet_append_of_none {β : Type} (d d' : List (String × β)) (k : String)
    (h : dictGet d k = none) : dictGet (d ++ d') k = dictGet d' k := by
  induction d with
  | nil => simp
  | cons e t ih =>
      by_cases he : e.1 = k
      · simp [dictGet, he] at h
      · simp [dictGet, he] at h ⊢; exact ih h

lemma dictGet_eq_none_of_not_mem {β : Type} (d : List (String × β)) (k : String)
    (h : k ∉ d.map (·.1)) : dictGet d k = none := by
  induction d with
  | nil => rfl
  | cons e t ih =>
      simp only [List.map_cons, List.mem_cons] at h
      push_neg at h
      have he : e.1 ≠ k := fun hh => h.1 hh.symm
      simp [dictGet, he, ih h.2]

lemma dictSet_of_not_mem {β : Type} (d : List (String × β)) (k : String) (v : β)
    (h : k ∉ d.map (·.1)) : dictSet d k v = d ++ [(k, v)] := by
  induction d with
  | nil => rfl
  | cons e t ih =>
      simp only [List.map_cons, List.mem_cons] at h
      push_neg at h
      have he : e.1 ≠ k := fun hh => h.1 hh.symm
      simp [dictSet, he, ih h.2]

lemma digitChar_inj_below : ∀ a < 10, ∀ b < 10,
    Nat.digitChar a = Nat.digitChar b → a = b := by decide

lemma map_digitChar_inj : ∀ (l1 l2 : List ℕ), (∀ x ∈ l1, x < 10) → (∀ x ∈ l2, x < 10) →
    l1.map Nat.digitChar = l2.map Nat.digitChar → l1 = l2 := by
  intro l1
  induction l1 with
  | nil =>
      intro l2 _ _ h
      cases l2 with
      | nil => rfl
      | cons b t2 => simp at h
  | cons a t ih =>
      intro l2 h1 h2 h
      cases l2 with
      | nil => simp at h
      | cons b t2 =>
          simp only [List.map_cons, List.cons.injEq] at h
          have hab : a = b :=
            digitChar_inj_below a (h1 a (by simp)) b (h2 b (by simp)) h.1
          have ht : t = t2 :=
            ih t2 (fun x hx => h1 x (by simp [hx])) (fun x hx => h2 x (by simp [hx])) h.2
          rw [hab, ht]

lemma natToStr_injective : Function.Injective natToStr := by
  intro m n h
  unfold natToStr at h
  have h0 : (((Nat.digits 10 m).map Nat.digitChar).reverse : List Char)
      = ((Nat.digits 10 n).map Nat.digitChar).reverse := by
    have := congrArg String.data h
    simpa [List.asString] using this
  have h1 := List.reverse_injective h0
  have h2 : Nat.digits 10 m = Nat.digits 10 n :=
    map_digitChar_inj _ _ (fun x hx => Nat.digits_lt_base (by norm_num) hx)
      (fun x hx => Nat.digits_lt_base (by norm_num) hx) h1
  have h3 := congrArg (Nat.ofDigits 10) h2
  rwa [Nat.ofDigits_digits, Nat.ofDigits_digits] at h3

lemma string_append_left_cancel (s a b : String) (h : s ++ a = s ++ b) : a = b := by
  have hd : (s ++ a).data = (s ++ b).data := congrArg String.data h
  rw [String.data_append, String.data_append] at hd
  exact String.ext (List.append_cancel_left hd)

lemma candName_injective (base : String) : Function.Injective (candName base) := by
  intro k1 k2 h
  exact natToStr_injective (string_append_left_cancel (base ++ "_") _ _ h)

lemma exists_unused_suffix (base : String) (existing : List String) :
    ∃ j, 1 ≤ j ∧ j ≤ existing.length + 1 ∧ candName base j ∉ existing := by
  by_contra hc
  push_neg at hc
  have hsub : (Finset.Icc 1 (existing.length + 1)).image (candName base)
      ⊆ existing.toFinset := by
    intro s hs
    simp only [Finset.mem_image, Finset.mem_Icc] at hs
    obtain ⟨j, ⟨hj1, hj2⟩, rfl⟩ := hs
    exact List.mem_toFinset.mpr (hc j hj1 hj2)
  have h1 := Finset.card_le_card hsub
  rw [Finset.card_image_of_injective _ (candName_injective base), Nat.card_Icc] at h1
  have h2 := existing.toFinset_card_le
  omega

lemma rename_with_suffix_not_mem (base : String) (existing : List String) :
    ∀ fuel k, (∃ j, k ≤ j ∧ j ≤ k + fuel ∧ candName base j ∉ existing) →
      rename_with_suffix base existing fuel k ∉ existing := by
  intro fuel
  induction fuel with
  | zero =>
      intro k hk
      obtain ⟨j, hj1, hj2, hj3⟩ := hk
      have hjk : j = k := by omega
      subst hjk
      simpa [rename_with_suffix] using hj3
  | succ f ih =>
      intro k hk
      obtain ⟨j, hj1, hj2, hj3⟩ := hk
      by_cases hmem : candName base k ∈ existing
      · have hne : j ≠ k := fun he => hj3 (he ▸ hmem)
        simp only [rename_with_suffix, if_pos hmem]
        exact ih (k + 1) ⟨j, by omega, by omega, hj3⟩
      · simpa [rename_with_suffix, if_neg hmem] using hmem

lemma rename_if_duplicate_not_mem (name : String) (existing : List String) :
    rename_if_duplicate name existing ∉ existing := by
  unfold rename_if_duplicate
  by_cases h : name ∈ existing
  · rw [if_pos h]
    obtain ⟨j, hj1, hj2, hj3⟩ := exists_unused_suffix name existing
    exact rename_with_suffix_not_mem name existing existing.length 1 ⟨j, hj1, by omega, hj3⟩
  · rw [if_neg h]
    exact h

lemma rename_with_suffix_shape (base : String) (existing : List String) :
    ∀ fuel k, ∃ j, rename_with_suffix base existing fuel k = candName base j := by
  intro fuel
  induction fuel with
  | zero => intro k; exact ⟨k, rfl⟩
  | succ f ih =>
      intro k
      by_cases h : candName base k ∈ existing
      · simpa only [rename_with_suffix, if_pos h] using ih (k + 1)
      · exact ⟨k, by simp only [rename_with_suffix, if_neg h]⟩

lemma rename_if_duplicate_shape (name : String) (existing : List String) :
    ∃ s, rename_if_duplicate name existing = name ++ s := by
  unfold rename_if_duplicate
  by_cases h : name ∈ existing
  · rw [if_pos h]
    obtain ⟨j, hj⟩ := rename_with_suffix_shape name existing existing.length 1
    refine ⟨"_" ++ natToStr j, ?_⟩
    rw [hj]
    unfold candName
    rw [String.append_assoc]
  · exact ⟨"", by rw [if_neg h, String.append_empty]⟩

lemma get_name_lookup_self (ns : NameState) (oc : Occ) :
    dictGet (get_name ns oc).2.links_by_token oc.entityToken = some (get_name ns oc).1 := by
  unfold get_name
  cases h : dictGet ns.links_by_token oc.entityToken with
  | some n => simp [h]
  | none =>
      simp only [h]
      rw [dictGet_append_of_none _ _ _ h]
      simp [dictGet]

lemma get_name_mono (ns : NameState) (oc : Occ) (t n : String)
    (h : dictGet ns.links_by_token t = some n) :
    dictGet (get_name ns oc).2.links_by_token t = some n := by
  unfold get_name
  cases hx : dictGet ns.links_by_token oc.entityToken with
  | some m => simpa [hx] using h
  | none =>
      simp only [hx]
      exact dictGet_append_some _ _ _ _ h

lemma rigid_group_step_mono (g : String) (p : Occ) (acc : NameState × List (String × JointInfo))
    (occ : Occ) (t n : String) (h : dictGet acc.1.links_by_token t = some n) :
    dictGet (rigid_group_step g p acc occ).1.links_by_token t = some n := by
  unfold rigid_group_step
  exact get_name_mono _ _ _ _ (get_name_mono _ _ _ _ h)

lemma rigid_group_foldl_mono (g : String) (p : Occ) :
    ∀ (rest : List Occ) (acc : NameState × List (String × JointInfo)) (t n : String),
      dictGet acc.1.links_by_token t = some n →
      dictGet ((rest.foldl (rigid_group_step g p) acc).1).links_by_token t = some n := by
  intro rest
  induction rest with
  | nil => intro acc t n h; exact h
  | cons x xs ih =>
      intro acc t n h
      exact ih _ t n (rigid_group_step_mono g p acc x t n h)

lemma rigid_group_fold_spec (groupName : String) (p : Occ) :
    ∀ (rest : List Occ) (ns : NameState) (jd : List (String × JointInfo)),
      ∃ tail,
        (rest.foldl (rigid_group_step groupName p) (ns, jd)).2 = jd ++ tail
        ∧ (tail.map (·.1)).Nodup
        ∧ (∀ e ∈ tail, e.1 ∉ jd.map (·.1))
        ∧ List.Forall₂ (fun (e : String × JointInfo) (occ : Occ) =>
            e.2.type = "fixed"
            ∧ dictGet ((rest.foldl (rigid_group_step groupName p) (ns, jd)).1).links_by_token
                p.entityToken = some e.2.parent
            ∧ dictGet ((rest.foldl (rigid_group_step groupName p) (ns, jd)).1).links_by_token
                occ.entityToken = some e.2.child
            ∧ e.1 = e.2.name
            ∧ (∃ s, e.2.name = groupName ++ s)) tail rest := by
  intro rest
  induction rest with
  | nil =>
      intro ns jd
      exact ⟨[], by simp, by simp, by simp, List.Forall₂.nil⟩
  | cons x xs ih =>
      intro ns jd
      have hfresh : rename_if_duplicate groupName (jd.map (·.1)) ∉ jd.map (·.1) :=
        rename_if_duplicate_not_mem _ _
      set rg := rename_if_duplicate groupName (jd.map (·.1)) with hrg
      set pr := get_name ns p with hpr
      set cr := get_name pr.2 x with hcr
      set info : JointInfo := { name := rg, parent := pr.1, child := cr.1 } with hinfo
      have hstep : rigid_group_step groupName p (ns, jd) x = (cr.2, jd ++ [(rg, info)]) := by
        show (cr.2, dictSet jd rg info) = (cr.2, jd ++ [(rg, info)])
        rw [dictSet_of_not_mem _ _ _ hfresh]
      have hfold : (x :: xs).foldl (rigid_group_step groupName p) (ns, jd)
          = xs.foldl (rigid_group_step groupName p) (cr.2, jd ++ [(rg, info)]) := by
        rw [List.foldl_cons, hstep]
      obtain ⟨tail', he', hnd', hnotin', hfa'⟩ := ih cr.2 (jd ++ [(rg, info)])
      refine ⟨(rg, info) :: tail', ?_, ?_, ?_, ?_⟩
      · rw [hfold, he']
        simp
      · simp only [List.map_cons, List.nodup_cons]
        constructor
        · intro hmem
          obtain ⟨e, hetail, hekey⟩ := List.mem_map.mp hmem
          have := hnotin' e hetail
          simp only [List.map_append, List.mem_append] at this
          push_neg at this
          exact this.2 (by simp [hekey])
        · exact hnd'
      · intro e he
        rcases List.mem_cons.mp he with he | he
        · rw [he]; exact hfresh
        · have := hnotin' e he
          simp only [List.map_append, List.mem_append] at this
          push_neg at this
          exact this.1
      · rw [hfold]
        refine List.Forall₂.cons ?_ hfa'
        refine ⟨rfl, ?_, ?_, rfl, ?_⟩
        · have h1 : dictGet pr.2.links_by_token p.entityToken = some pr.1 :=
            get_name_lookup_self ns p
          have h2 : dictGet cr.2.links_by_token p.entityToken = some pr.1 :=
            get_name_mono pr.2 x _ _ h1
          exact rigid_group_foldl_mono groupName p xs (cr.2, jd ++ [(rg, info)]) _ _ h2
        · have h1 : dictGet cr.2.links_by_token x.entityToken = some cr.1 :=
            get_name_lookup_self pr.2 x
          exact rigid_group_foldl_mono groupName p xs (cr.2, jd ++ [(rg, info)]) _ _ h1
        · exact rename_if_duplicate_shape groupName (jd.map (·.1))

/-- C6: for every rigid group over an occurrence list `A :: rest` (so of
length `n = rest.length + 1`), joint extraction appends exactly `n - 1` new
records to the joint dictionary — one per occurrence after the first, in
order — every one of kind `fixed`, every one whose parent is the name the
final naming state resolves for the first listed occurrence `A` and whose
child is the name the final naming state resolves for the corresponding
remaining occurrence; each record is stored under its own name, which is the
group name possibly extended by a deduplication suffix, and the new record
names are fresh and pairwise distinct (deduplicated like any other name). -/
theorem rigid_group_chain_spec (groupName : String) (p : Occ) (rest : List Occ)
    (ns : NameState) (jd : List (String × JointInfo)) :
    ∃ tail,
      (processRigidGroup ns jd groupName (p :: rest)).2 = jd ++ tail
      ∧ tail.length = rest.length
      ∧ (tail.map (·.1)).Nodup
      ∧ (∀ e ∈ tail, e.1 ∉ jd.map (·.1))
      ∧ List.Forall₂ (fun (e : String × JointInfo) (occ : Occ) =>
          e.2.type = "fixed"
          ∧ dictGet (processRigidGroup ns jd groupName (p :: rest)).1.links_by_token
              p.entityToken = some e.2.parent
          ∧ dictGet (processRigidGroup ns jd groupName (p :: rest)).1.links_by_token
              occ.entityToken = some e.2.child
          ∧ e.1 = e.2.name
          ∧ (∃ s, e.2.name = groupName ++ s)) tail rest := by
  simp only [processRigidGroup]
  obtain ⟨tail, h1, h2, h3, h4⟩ := rigid_group_fold_spec groupName p rest ns jd
  exact ⟨tail, h1, h4.length_eq, h2, h3, h4⟩

/-- C1: during the kinematic BFS, when a joint record declaring parent `X`
and child `Y` is examined from occurrence `Y` while `Y` is already grounded
and `X` is not (the traversal grounded the declared child first), the emitted
output joint has parent `Y` and child `X`; conversely, when the record is
examined from its declared parent while the declared child is already
grounded, the edge is skipped and the build state is unchanged, so no output
joint is emitted for it. -/
theorem bfs_swaps_declared_direction (links_by_name : String → Matrix3D)
    (st : BuildState) (occName : String) (j : JointInfo) :
    (j.child = occName → occName ∈ st.grounded → j.parent ∉ st.grounded →
      ∃ out, dictGet (examineJoint links_by_name st occName j).joints j.name = some out
        ∧ out.parent = occName ∧ out.child = j.parent)
    ∧ (j.parent = occName → j.child ∈ st.grounded →
      examineJoint links_by_name st occName j = st) := by
  constructor
  · intro h1 h2 h3
    have hne : ¬ j.parent = occName := fun h => h3 (h ▸ h2)
    refine ⟨{ name := j.name, type := j.type, axis := j.axis, parent := occName,
              child := j.parent, upper_limit := j.upper_limit,
              lower_limit := j.lower_limit }, ?_, rfl, rfl⟩
    unfold examineJoint neighborOf
    rw [if_neg hne, if_neg h3]
    exact dictGet_dictSet_self _ _ _
  · intro h1 h2
    unfold examineJoint neighborOf
    rw [if_pos h1, if_pos h2]

/-- Witness for C1 at a concrete input: a record declaring parent `X`,
child `Y`, examined from the grounded `Y` with `X` not grounded, emits the
swapped joint; the skip case is exercised through the theorem as well. -/
theorem bfs_swaps_declared_direction_witness :
    ∃ out, dictGet (examineJoint (fun _ => ⟨⟨0, 0, 0⟩, ⟨1, 0, 0⟩, ⟨0, 1, 0⟩, ⟨0, 0, 1⟩⟩)
        ⟨["base_link", "Y"], [], [], []⟩ "Y"
        { name := "j1", parent := "X", child := "Y" }).joints "j1" = some out
      ∧ out.parent = "Y" ∧ out.child = "X" :=
  (bfs_swaps_declared_direction (fun _ => ⟨⟨0, 0, 0⟩, ⟨1, 0, 0⟩, ⟨0, 1, 0⟩, ⟨0, 0, 1⟩⟩)
    ⟨["base_link", "Y"], [], [], []⟩ "Y" { name := "j1", parent := "X", child := "Y" }).1
    rfl (by decide) (by decide)

/-- C2: a neighbor newly discovered by the BFS stores as its absolute pose
the raw CAD transform of the neighbor occurrence with its three axes left
exactly as in the CAD data; through a non-fixed joint only the origin (the
translational component) is replaced by the resolved joint origin, through a
fixed joint the CAD transform is stored unmodified. -/
theorem discovered_pose_translation_override (links_by_name : String → Matrix3D)
    (st : BuildState) (occName : String) (j : JointInfo) (c : String)
    (hdisc : neighborOf st.grounded occName j = some c) :
    ∃ m, dictGet (examineJoint links_by_name st occName j).link_origins c = some m
      ∧ m.xAxis = (links_by_name c).xAxis
      ∧ m.yAxis = (links_by_name c).yAxis
      ∧ m.zAxis = (links_by_name c).zAxis
      ∧ m.origin = (if j.type = "fixed" then (links_by_name c).origin else j.origin) := by
  by_cases hf : j.type = "fixed"
  · refine ⟨links_by_name c, ?_, rfl, rfl, rfl, by rw [if_pos hf]⟩
    unfold examineJoint
    rw [hdisc]
    unfold discover_neighbor
    simp only [hf, ne_eq, not_true_eq_false, if_false]
    exact dictGet_dictSet_self _ _ _
  · refine ⟨{ links_by_name c with origin := j.origin }, ?_, rfl, rfl, rfl, by rw [if_neg hf]⟩
    unfold examineJoint
    rw [hdisc]
    unfold discover_neighbor
    simp only [ne_eq, hf, not_false_eq_true, if_true]
    exact dictGet_dictSet_self _ _ _

/-- Witness for C2 at a concrete input: a revolute record discovered from the
grounded side stores the CAD axes with the joint origin. -/
theorem discovered_pose_translation_override_witness :
    ∃ m, dictGet (examineJoint (fun _ => ⟨⟨5, 6, 7⟩, ⟨1, 0, 0⟩, ⟨0, 1, 0⟩, ⟨0, 0, 1⟩⟩)
        ⟨["base_link"], [], [], []⟩ "base_link"
        { name := "j1", parent := "base_link", child := "arm", type := "revolute",
          origin := ⟨1, 2, 3⟩ }).link_origins "arm" = some m
      ∧ m.xAxis = ⟨1, 0, 0⟩ ∧ m.yAxis = ⟨0, 1, 0⟩ ∧ m.zAxis = ⟨0, 0, 1⟩
      ∧ m.origin = ⟨1, 2, 3⟩ := by
  have h := discovered_pose_translation_override
    (fun _ => ⟨⟨5, 6, 7⟩, ⟨1, 0, 0⟩, ⟨0, 1, 0⟩, ⟨0, 0, 1⟩⟩)
    ⟨["base_link"], [], [], []⟩ "base_link"
    { name := "j1", parent := "base_link", child := "arm", type := "revolute",
      origin := ⟨1, 2, 3⟩ } "arm" (by decide)
  simpa using h

/-- C10: for a non-fixed joint whose first side resolved an origin, the
origin stored in the created joint record is exactly the first side origin;
the second side origin influences only the validation: whenever the
coincidence check passes, the result is identical to the result computed
with no second origin at all, so the stored record (and hence everything
downstream of it) does not depend on the second origin. -/
theorem joint_record_origin_from_first_side (eps cm : ℚ)
    (nm orig parent child jt o1n o2n : String) (hjt : jt ≠ "fixed")
    (p1 : Point3D) (m : JointMotion) :
    (∀ info, processJoint eps cm nm orig parent child jt (some p1) none o1n o2n m
        = .ok info → info.origin = p1)
    ∧ (∀ p2, close_enough_pt eps p2 p1 = true →
        processJoint eps cm nm orig parent child jt (some p1) (some p2) o1n o2n m
          = processJoint eps cm nm orig parent child jt (some p1) none o1n o2n m) := by
  constructor
  · intro info h
    simp only [processJoint, if_neg hjt] at h
    cases m with
    | revolute maxEn minEn ax mx mn =>
        simp only [extract_axis_limits] at h
        by_cases he : (maxEn && minEn) = true
        · rw [if_pos he] at h
          simp only [Except.ok.injEq] at h
          rw [← h]
        · rw [if_neg he] at h
          simp at h
    | slider maxEn minEn ax mx mn =>
        simp only [extract_axis_limits] at h
        by_cases he : (maxEn && minEn) = true
        · rw [if_pos he] at h
          simp only [Except.ok.injEq] at h
          rw [← h]
        · rw [if_neg he] at h
          simp at h
    | otherMotion =>
        simp only [extract_axis_limits, Except.ok.injEq] at h
        rw [← h]
  · intro p2 h2
    simp only [processJoint, if_neg hjt]
    simp [h2]

/-- Witness for C10 at a concrete input: with coincident origins the result
equals the result computed without the second origin. -/
theorem joint_record_origin_from_first_side_witness :
    processJoint 1 1 "j" "j" "p" "c" "revolute" (some ⟨1, 2, 3⟩) (some ⟨1, 2, 3⟩)
        "a" "b" .otherMotion
      = processJoint 1 1 "j" "j" "p" "c" "revolute" (some ⟨1, 2, 3⟩) none
        "a" "b" .otherMotion :=
  (joint_record_origin_from_first_side 1 1 "j" "j" "p" "c" "revolute" "a" "b"
    (by decide) ⟨1, 2, 3⟩ .otherMotion).2 ⟨1, 2, 3⟩
    (by norm_num [close_enough_pt, close_enough_num])

/-- C3: for every non-fixed joint a missing first side origin is fatal; when
both sides resolve origins the run aborts with the error naming both
occurrences and both origins unless the per-axis coincidence check at
tolerance `eps = 1e-7 / scale` passes, in which case processing proceeds to
the axis and limit extraction; concretely at scale 1 (tolerance `1e-7`)
origins `(0,0,0)` and `(0,0,1e-9)` pass while `(0,0,0)` and `(0,0,0.01)`
fail; fixed joints require no origin at all. -/
theorem nonfixed_origin_validation (scale cm : ℚ)
    (nm orig parent child jt o1n o2n : String) (hjt : jt ≠ "fixed") (m : JointMotion) :
    (∀ o2, processJoint (epsFor scale) cm nm orig parent child jt none o2 o1n o2n m
        = .error (no_origin_msg orig))
    ∧ (∀ p1 p2, close_enough_pt (epsFor scale) p2 p1 = false →
        processJoint (epsFor scale) cm nm orig parent child jt (some p1) (some p2) o1n o2n m
          = .error (coincide_msg o1n o2n orig p1 p2))
    ∧ (∀ p1 p2, close_enough_pt (epsFor scale) p2 p1 = true →
        processJoint (epsFor scale) cm nm orig parent child jt (some p1) (some p2) o1n o2n m
          = extract_axis_limits cm nm parent child jt p1 m)
    ∧ close_enough_pt (epsFor 1) ⟨0, 0, 1/1000000000⟩ ⟨0, 0, 0⟩ = true
    ∧ close_enough_pt (epsFor 1) ⟨0, 0, 1/100⟩ ⟨0, 0, 0⟩ = false
    ∧ (∀ o1 o2 m2, processJoint (epsFor scale) cm nm orig parent child "fixed" o1 o2 o1n o2n m2
        = .ok { name := nm, parent := parent, child := child }) := by
  have habs9 : |(1 : ℚ)/1000000000| = 1/1000000000 :=
    abs_of_nonneg (by norm_num)
  have habs2 : |(1 : ℚ)/100| = 1/100 := abs_of_nonneg (by norm_num)
  refine ⟨?_, ?_, ?_,
    by norm_num [close_enough_pt, close_enough_num, epsFor]; rw [habs9]; norm_num,
    by norm_num [close_enough_pt, close_enough_num, epsFor]; rw [habs2]; norm_num, ?_⟩
  · intro o2
    simp [processJoint, hjt]
  · intro p1 p2 hc
    simp [processJoint, hjt, hc]
  · intro p1 p2 hc
    simp [processJoint, hjt, hc]
  · intro o1 o2 m2
    simp [processJoint]

/-- Witness for C3 at a concrete input: a revolute joint with no resolved
first origin aborts with the missing-origin message. -/
theorem nonfixed_origin_validation_witness :
    processJoint (epsFor 1) 1 "j" "j" "p" "c" "revolute" none none "a" "b" .otherMotion
      = .error (no_origin_msg "j") :=
  (nonfixed_origin_validation 1 1 "j" "j" "p" "c" "revolute" "a" "b"
    (by decide) .otherMotion).1 none

/-- C7 counterexample: a revolute joint whose reported minimum and maximum
angle limits are equal receives the substituted limits -3.14159 and +3.14159,
and 3.14159 is not pi (pi exceeds 3.141592), so the substituted limits are
not the claimed lower = -pi and upper = +pi. -/
theorem revolute_default_limit_not_pi :
    processJoint 1 1 "j" "j" "p" "c" "revolute" (some ⟨0, 0, 0⟩) none "a" "b"
        (.revolute true true ⟨0, 0, 1⟩ 0 0)
      = .ok { name := "j", parent := "p", child := "c", type := "revolute",
              origin := ⟨0, 0, 0⟩, axis := (0, 0, 1),
              upper_limit := 314159/100000, lower_limit := -(314159/100000) }
    ∧ ((314159/100000 : ℚ) : ℝ) ≠ Real.pi := by
  constructor
  · norm_num [processJoint, extract_axis_limits]
    decide
  · intro hcontra
    have hpi := Real.pi_gt_d6
    rw [← hcontra] at hpi
    norm_num at hpi

/-- C7 (amended): for a revolute joint with equal reported limits the record
carries the substituted defaults lower = -3.14159 and upper = +3.14159 (an
approximation of a full plus-minus pi range, not exactly pi); differing
revolute limits are taken verbatim (radians); sliding joint limits are
multiplied by the centimeter-to-target-unit factor `cm`; any other non-fixed
kind gets a zero axis and zero limits. -/
theorem joint_axis_limit_extraction (eps cm : ℚ) (nm orig parent child o1n o2n : String)
    (ax : Vector3D) (mx mn : ℚ) (p1 : Point3D) :
    (mx = mn →
      processJoint eps cm nm orig parent child "revolute" (some p1) none o1n o2n
          (.revolute true true ax mx mn)
        = .ok { name := nm, parent := parent, child := child, type := "revolute",
                origin := p1, axis := (ax.x, ax.y, ax.z),
                upper_limit := 314159/100000, lower_limit := -(314159/100000) })
    ∧ (mx ≠ mn →
      processJoint eps cm nm orig parent child "revolute" (some p1) none o1n o2n
          (.revolute true true ax mx mn)
        = .ok { name := nm, parent := parent, child := child, type := "revolute",
                origin := p1, axis := (ax.x, ax.y, ax.z),
                upper_limit := mx, lower_limit := mn })
    ∧ (processJoint eps cm nm orig parent child "prismatic" (some p1) none o1n o2n
          (.slider true true ax mx mn)
        = .ok { name := nm, parent := parent, child := child, type := "prismatic",
                origin := p1, axis := (ax.x, ax.y, ax.z),
                upper_limit := mx * cm, lower_limit := mn * cm })
    ∧ (∀ jt, jt ≠ "fixed" →
        processJoint eps cm nm orig parent child jt (some p1) none o1n o2n .otherMotion
          = .ok { name := nm, parent := parent, child := child, type := jt,
                  origin := p1, axis := (0, 0, 0), upper_limit := 0, lower_limit := 0 }) := by
  refine ⟨?_, ?_, ?_, ?_⟩
  · intro he
    have habs : |mx - mn| = 0 := by rw [he]; simp
    simp [processJoint, extract_axis_limits, habs]
  · intro he
    have habs : ¬ |mx - mn| = 0 := by simp [sub_eq_zero, he]
    simp [processJoint, extract_axis_limits, habs]
  · simp [processJoint, extract_axis_limits]
  · intro jt hjt
    simp [processJoint, extract_axis_limits, hjt]

/-- Witness for C7 (amended) at a concrete input: equal limits 2 and 2 are
replaced by the plus-minus 3.14159 defaults. -/
theorem joint_axis_limit_extraction_witness :
    processJoint 1 1 "j" "j" "p" "c" "revolute" (some ⟨0, 0, 0⟩) none "a" "b"
        (.revolute true true ⟨1, 0, 0⟩ 2 2)
      = .ok { name := "j", parent := "p", child := "c", type := "revolute",
              origin := ⟨0, 0, 0⟩, axis := (1, 0, 0),
              upper_limit := 314159/100000, lower_limit := -(314159/100000) } :=
  (joint_axis_limit_extraction 1 1 "j" "j" "p" "c" "a" "b" ⟨1, 0, 0⟩ 2 2 ⟨0, 0, 0⟩).1 rfl

/-- C5: evaluation of the mass correction at an occurrence with one hidden
own body (mass 1, light bulb off) and one child occurrence: for a node with
descendants, `get_flat_body` collects only bodies at depth two or more of
the subtree, so the hidden own body is not subtracted and the mass stays 5,
while the subtree rule stated by the claim (and by the docstring of
`get_flat_body`) subtracts it, giving 4. -/
theorem hidden_own_body_mass_not_subtracted :
    inertia_mass 5 (.mk [⟨1, false⟩] [.mk [] []]) = 5
    ∧ claim_mass 5 (.mk [⟨1, false⟩] [.mk [] []]) = 4 := by
  constructor
  · norm_num [inertia_mass, get_flat_body, Hier.descendants, descendantsL,
      Hier.bodies, Hier.children]
  · norm_num [claim_mass, subtree_bodies, Hier.descendants, descendantsL,
      Hier.bodies, Hier.children]

/-- C4: the reachability sanity check as written never fires for an assembly
(root component named Robot v1) with a grounded root occurrence plus one
isolated visible body-bearing occurrence, because its guard looks up the
root component name (Robot) among the `body_dict` keys, which are occurrence
link names; the same input runs through the check modelled from the spec and
is flagged.  The code therefore accepts the export that the claim (spec step
5) requires to fail. -/
theorem sanity_check_misses_isolated_occurrence :
    sanity_check "Robot v1"
        [⟨"tok0", "base", true, "base_link"⟩, ⟨"tok1", "lonely", true, "lonely"⟩]
        ["base_link", "lonely"] [("tok0", "base_link")] ["base_link"]
      = none
    ∧ sanity_check_spec
        [⟨"tok0", "base", true, "base_link"⟩, ⟨"tok1", "lonely", true, "lonely"⟩]
        ["base_link", "lonely"] [("tok0", "base_link")] ["base_link"]
      ≠ none := by
  constructor
  · rfl
  · decide

/-- C8 counterexample: a joint of kind `Cylinderical` (the cylindrical entry
of `joint_type_list`, a non-fixed kind) is rendered with no axis element and
no limit element, contradicting the claim that every non-fixed kind receives
both. -/
theorem cylindrical_joint_xml_lacks_axis_and_limit :
    "Cylinderical" ∈ joint_type_list
    ∧ ((joint_xml ⟨"cyl", "Cylinderical", [0, 0, 0], [0, 0, 0], [0, 0, 1],
        "l1", "l2", 1, -1⟩).children.filter (fun x => x.tag == "axis")).isEmpty = true
    ∧ ((joint_xml ⟨"cyl", "Cylinderical", [0, 0, 0], [0, 0, 0], [0, 0, 1],
        "l1", "l2", 1, -1⟩).children.filter (fun x => x.tag == "limit")).isEmpty = true := by
  refine ⟨by decide, rfl, rfl⟩

/-- C8 (amended): only joints of type revolute or prismatic receive both an
axis element and a limit element (with upper, lower and the fixed default
effort and velocity limits); a continuous joint receives an axis but no
limit; fixed joints and the remaining non-fixed kinds of `joint_type_list`
(Cylinderical, PinSlot, Planner, Ball) receive neither. -/
theorem joint_xml_axis_limit_presence (j : PJoint) :
    (j.type = "revolute" ∨ j.type = "prismatic" →
      (Xml.el "axis" [("xyz", joinNums j.axis)] [] ∈ (joint_xml j).children
       ∧ Xml.el "limit" [("upper", toString j.upper_limit), ("lower", toString j.lower_limit),
           ("effort", toString effort_limit), ("velocity", toString vel_limit)] []
         ∈ (joint_xml j).children))
    ∧ (j.type = "continuous" →
      (Xml.el "axis" [("xyz", joinNums j.axis)] [] ∈ (joint_xml j).children
       ∧ ∀ x ∈ (joint_xml j).children, x.tag ≠ "limit"))
    ∧ (j.type = "fixed" ∨ j.type = "Cylinderical" ∨ j.type = "PinSlot"
        ∨ j.type = "Planner" ∨ j.type = "Ball" →
      ∀ x ∈ (joint_xml j).children, x.tag ≠ "axis" ∧ x.tag ≠ "limit") := by
  refine ⟨?_, ?_, ?_⟩
  · intro h
    rcases h with ht | ht <;> simp [joint_xml, ht, Xml.tag, Xml.children]
  · intro ht
    simp [joint_xml, ht, Xml.tag, Xml.children]
  · intro h
    rcases h with ht | ht | ht | ht | ht <;> simp [joint_xml, ht, Xml.tag, Xml.children]

/-- Witness for C8 (amended) at a concrete revolute joint. -/
theorem joint_xml_axis_limit_presence_witness :
    Xml.el "axis" [("xyz", joinNums [1, 0, 0])] []
      ∈ (joint_xml ⟨"r", "revolute", [0, 0, 0], [0, 0, 0], [1, 0, 0],
          "a", "b", 1, 0⟩).children
    ∧ Xml.el "limit" [("upper", toString (1 : ℚ)), ("lower", toString (0 : ℚ)),
        ("effort", toString effort_limit), ("velocity", toString vel_limit)] []
      ∈ (joint_xml ⟨"r", "revolute", [0, 0, 0], [0, 0, 0], [1, 0, 0],
          "a", "b", 1, 0⟩).children :=
  (joint_xml_axis_limit_presence
    ⟨"r", "revolute", [0, 0, 0], [0, 0, 0], [1, 0, 0], "a", "b", 1, 0⟩).1 (Or.inl rfl)

/-- C9 counterexample: an occurrence with no own appearance, owning one body
without an appearance, whose parent component material appearance is Steel
with a color property: the claimed priority order resolves Steel, but the
code never reaches the component material branch when the body collection
is non-empty, so the occurrence is assigned the default silver material. -/
theorem body_bearing_occurrence_skips_component_material :
    occ_material ⟨none, [⟨none⟩], some (some ⟨"Steel", [.colorProp 100 100 100 255]⟩)⟩
      = "silver_default"
    ∧ claim_material ⟨none, [⟨none⟩], some (some ⟨"Steel", [.colorProp 100 100 100 255]⟩)⟩
      = "Steel" := by
  constructor
  · rfl
  · rfl

/-- C9 (amended): material resolution picks the occurrence appearance when
present; otherwise, when the occurrence owns at least one body, the first
owned body that has an appearance — and when no owned body has one, nothing
resolves even if the component material has an appearance; only when the
occurrence owns no bodies is the component material appearance consulted;
whenever no color property results, the occurrence is assigned the
pre-registered default silver material, and otherwise the sanitized
appearance name. -/
theorem appearance_priority_resolution (occ : OccM) :
    (∀ a, occ.appearance = some a → picked_appearance occ = some a)
    ∧ (occ.appearance = none → occ.bRepBodies ≠ [] →
        picked_appearance occ
          = ((occ.bRepBodies.filter (fun b => b.appearance.isSome)).head?).bind
              (fun b => b.appearance))
    ∧ (occ.appearance = none → occ.bRepBodies = [] →
        picked_appearance occ = occ.componentMaterial.getD none)
    ∧ (picked_appearance occ = none → occ_material occ = "silver_default")
    ∧ (∀ a, picked_appearance occ = some a → first_color a.props = none →
        occ_material occ = "silver_default")
    ∧ (∀ a cp, picked_appearance occ = some a → first_color a.props = some cp →
        occ_material occ = format_name (convert_german a.name)) := by
  refine ⟨?_, ?_, ?_, ?_, ?_, ?_⟩
  · intro a h
    simp [picked_appearance, h]
  · intro h1 h2
    simp [picked_appearance, h1, h2]
  · intro h1 h2
    simp [picked_appearance, h1, h2]
    intro h3
    rw [h3]
    rfl
  · intro h
    simp [occ_material, get_appearance, h]
  · intro a h hc
    simp [occ_material, get_appearance, h, hc]
  · intro a cp h hc
    simp [occ_material, get_appearance, h, hc]

/-- Witness for C9 (amended) at a concrete occurrence whose own appearance
Red carries a color property. -/
theorem appearance_priority_resolution_witness :
    occ_material ⟨some ⟨"Red", [.colorProp 255 0 0 255]⟩, [], none⟩ = "Red" := by
  have h := (appearance_priority_resolution
    ⟨some ⟨"Red", [.colorProp 255 0 0 255]⟩, [], none⟩).2.2.2.2.2
    ⟨"Red", [.colorProp 255 0 0 255]⟩ (255, 0, 0, 255) rfl rfl
  simpa using h
